import Mathlib

/-!
# Verification of the Prompts-of-Alexandria template persistence subsystem

Shallow embedding of `src/nodes.py` (filename sanitizer, storage-root file
store, change-detection cache, HTTP handlers) together with proofs of the
specification claims.

Modelling conventions:
* A template record (a Python dict) is a structure of the fields the code
  reads or writes; `Option` marks a key that may be absent.
* Template entries are opaque records (spec §3: "content is not interpreted,
  only hashed and round-tripped"); each entry is represented by its canonical
  (key-sorted) serialization, a `String`.
* The MD5 content hash of `json.dumps(entries, sort_keys=True)` is modelled
  collision-freely: the hash value is represented by the canonical content
  itself, so hash equality in the model is equality of canonical content.
* The storage directory is a single association list from filename to file
  content; `none` models a directory that does not exist.  `pathlib`'s
  `glob("*.json")` matches every name ending in `".json"` (fnmatch `*`
  matches any characters, dots included).
-/

namespace Alexandria

/-! ## Filename sanitizer (`_sanitize_filename`, nodes.py lines 204-210) -/

/-- The invalid filename characters of nodes.py line 207: `<>:"/\|?*`. -/
def invalid_chars : List Char := ['<', '>', ':', '"', '/', '\\', '|', '?', '*']

/-- One `str.replace(char, '_')` pass over the characters of the name. -/
def replaceChar (c : Char) (s : List Char) : List Char :=
  s.map fun x => if x = c then '_' else x

/-- The sequential `for char in invalid_chars: name = name.replace(char, '_')`. -/
def replaceInvalid (s : List Char) : List Char :=
  invalid_chars.foldl (fun acc c => replaceChar c acc) s

/-- Code points stripped by Python `str.strip()` (characters with
`str.isspace() == True`). -/
def pySpaceCodes : List Nat :=
  [0x09, 0x0A, 0x0B, 0x0C, 0x0D, 0x1C, 0x1D, 0x1E, 0x1F, 0x20, 0x85, 0xA0,
   0x1680, 0x2000, 0x2001, 0x2002, 0x2003, 0x2004, 0x2005, 0x2006, 0x2007,
   0x2008, 0x2009, 0x200A, 0x2028, 0x2029, 0x202F, 0x205F, 0x3000]

def isPySpace (c : Char) : Bool := c.toNat ∈ pySpaceCodes

/-- Python `str.strip()`: remove leading and trailing whitespace. -/
def pyStrip (s : List Char) : List Char :=
  (s.dropWhile isPySpace).rdropWhile isPySpace

/-- `_sanitize_filename` (nodes.py 204-210): replace each invalid character
with `_`, then strip surrounding whitespace. -/
def _sanitize_filename (name : String) : String :=
  String.mk (pyStrip (replaceInvalid name.data))

/-! ### Sanitizer lemmas -/

/-- Pointwise form of the sequential replacement fold. -/
def sanitizeChar (x : Char) : Char := if x ∈ invalid_chars then '_' else x

lemma foldl_replace_eq_map (cs : List Char) (s : List Char) :
    cs.foldl (fun acc c => replaceChar c acc) s =
      s.map (fun x => cs.foldl (fun y c => if y = c then '_' else y) x) := by
  induction cs generalizing s with
  | nil => simp
  | cons c cs ih =>
      simp only [List.foldl_cons]
      rw [ih (replaceChar c s)]
      simp [replaceChar, List.map_map, Function.comp]

lemma foldl_step_not_mem (cs : List Char) (x : Char) (hx : x ∉ cs) :
    cs.foldl (fun y c => if y = c then '_' else y) x = x := by
  induction cs with
  | nil => rfl
  | cons c cs ih =>
      simp only [List.mem_cons, not_or] at hx
      simp only [List.foldl_cons, if_neg hx.1]
      exact ih hx.2

lemma foldl_step_mem (cs : List Char) (x : Char) (hx : x ∈ cs) (hu : '_' ∉ cs) :
    cs.foldl (fun y c => if y = c then '_' else y) x = '_' := by
  induction cs with
  | nil => cases hx
  | cons c cs ih =>
      simp only [List.mem_cons, not_or] at hu
      rcases List.mem_cons.mp hx with h | h
      · subst h
        simp only [List.foldl_cons, if_pos rfl]
        exact foldl_step_not_mem cs '_' hu.2
      · by_cases hxc : x = c
        · subst hxc
          simp only [List.foldl_cons, if_pos rfl]
          exact foldl_step_not_mem cs '_' hu.2
        · simp only [List.foldl_cons, if_neg hxc]
          exact ih h hu.2

lemma replaceInvalid_eq_map (s : List Char) :
    replaceInvalid s = s.map sanitizeChar := by
  rw [replaceInvalid, foldl_replace_eq_map]
  refine List.map_congr_left fun x _ => ?_
  by_cases hx : x ∈ invalid_chars
  · rw [foldl_step_mem invalid_chars x hx (by decide), sanitizeChar, if_pos hx]
  · rw [foldl_step_not_mem invalid_chars x hx, sanitizeChar, if_neg hx]

lemma sanitizeChar_idem (x : Char) : sanitizeChar (sanitizeChar x) = sanitizeChar x := by
  by_cases hx : x ∈ invalid_chars
  · have h1 : sanitizeChar x = '_' := by simp [sanitizeChar, hx]
    rw [h1]
    decide
  · have h1 : sanitizeChar x = x := by simp [sanitizeChar, hx]
    rw [h1]
    exact h1

lemma mem_pyStrip (x : Char) (l : List Char) (hx : x ∈ pyStrip l) : x ∈ l := by
  rw [pyStrip, List.rdropWhile] at hx
  have h1 : x ∈ (l.dropWhile isPySpace).reverse :=
    (List.dropWhile_sublist _).subset (List.mem_reverse.mp hx)
  exact (List.dropWhile_sublist _).subset (List.mem_reverse.mp h1)

lemma not_p_of_dropWhile_eq_cons (p : Char → Bool) :
    ∀ (l : List Char) (a : Char) (as : List Char), l.dropWhile p = a :: as → ¬p a := by
  intro l
  induction l with
  | nil => intro a as h; cases h
  | cons x xs ih =>
      intro a as h
      by_cases hx : p x
      · rw [List.dropWhile_cons, if_pos hx] at h
        exact ih a as h
      · rw [List.dropWhile_cons, if_neg hx] at h
        injection h with h1 _
        subst h1
        exact hx

/-- The head of `rdropWhile p (dropWhile p l)` is the head of `dropWhile p l`,
so it fails `p`; hence a second leading strip does nothing. -/
lemma dropWhile_rdropWhile_dropWhile (p : Char → Bool) (l : List Char) :
    ((l.dropWhile p).rdropWhile p).dropWhile p = (l.dropWhile p).rdropWhile p := by
  cases hA : l.dropWhile p with
  | nil => simp
  | cons a as =>
      have ha : ¬p a := not_p_of_dropWhile_eq_cons p l a as hA
      have hR : (a :: as).rdropWhile p ≠ [] := by
        rw [Ne, List.rdropWhile_eq_nil_iff]
        push_neg
        exact ⟨a, List.mem_cons_self a as, by simpa using ha⟩
      obtain ⟨t, ht⟩ := List.dropWhile_suffix (l := (a :: as).reverse) p
      have hsplit : a :: as = (a :: as).rdropWhile p ++ t.reverse := by
        have h2 := congrArg List.reverse ht
        simpa [List.rdropWhile] using h2.symm
      obtain ⟨R2, hR2⟩ : ∃ R2, (a :: as).rdropWhile p = a :: R2 := by
        cases hcase : (a :: as).rdropWhile p with
        | nil => exact absurd hcase hR
        | cons b bs =>
            rw [hcase, List.cons_append] at hsplit
            injection hsplit with h1 _
            exact ⟨bs, by rw [h1]⟩
      rw [hR2, List.dropWhile_cons, if_neg ha]

lemma pyStrip_idem (l : List Char) : pyStrip (pyStrip l) = pyStrip l := by
  rw [pyStrip, pyStrip, dropWhile_rdropWhile_dropWhile, List.rdropWhile_idempotent]

lemma map_sanitizeChar_pyStrip (l : List Char) :
    (pyStrip (l.map sanitizeChar)).map sanitizeChar = pyStrip (l.map sanitizeChar) := by
  have h : ∀ x ∈ pyStrip (l.map sanitizeChar), sanitizeChar x = x := by
    intro x hx
    obtain ⟨y, _, hy⟩ := List.mem_map.mp (mem_pyStrip x _ hx)
    rw [← hy]
    exact sanitizeChar_idem y
  calc (pyStrip (l.map sanitizeChar)).map sanitizeChar
      = (pyStrip (l.map sanitizeChar)).map id := List.map_congr_left fun x hx => h x hx
    _ = pyStrip (l.map sanitizeChar) := List.map_id _

/-- **C10.** Sanitize is idempotent: `sanitize(sanitize(x)) = sanitize(x)` for
every string `x`, where sanitize replaces each of `<>:"/\|?*` with `_` and then
strips leading and trailing whitespace; it is a pure total function. -/
theorem C10_sanitize_idempotent (x : String) :
    _sanitize_filename (_sanitize_filename x) = _sanitize_filename x := by
  unfold _sanitize_filename
  apply congrArg String.mk
  simp only [String.data]
  rw [replaceInvalid_eq_map]
  rw [replaceInvalid_eq_map]
  rw [map_sanitizeChar_pyStrip, pyStrip_idem]

/-! ## Data model -/

/-- An opaque template entry (spec §3: content is never interpreted),
represented by its canonical key-sorted serialization. -/
abbrev Entry := String

/-- The MD5 of `json.dumps(entries, sort_keys=True)` (nodes.py 437-438),
modelled collision-freely: the hash is represented by the canonical content
itself, so hash equality is equality of canonical content. -/
abbrev ContentHash := List Entry

def contentHash (entries : List Entry) : ContentHash := entries

/-- A template record (a JSON object): the fields nodes.py reads or writes.
`none` models an absent key. -/
structure TemplateData where
  name : Option String
  entries : Option (List Entry)
  id : Option String
  createdAt : Option String
  updatedAt : Option String
  hash : Option ContentHash
  filePath : Option String
deriving DecidableEq, Repr

/-- Content of one file in the storage directory: either a JSON template
object, or bytes on which `json.load` (or the subsequent dict access) raises,
which `_load_templates_from_directory` catches and skips. -/
inductive FileContent where
  | invalid : FileContent
  | valid : TemplateData → FileContent
deriving DecidableEq, Repr

/-- The storage directory: filename ↦ file content, in enumeration order. -/
abbrev Store := List (String × FileContent)

/-- `none` models a storage directory that does not exist on disk. -/
abbrev FS := Option Store

/-- A real directory lists each filename once. -/
def StoreWF (st : Store) : Prop := (st.map Prod.fst).Nodup

/-- Writing a file: overwrite in place if the name exists, else create. -/
def storeWrite (st : Store) (k : String) (v : FileContent) : Store :=
  if st.any (fun p => p.1 == k) then
    st.map (fun p => if p.1 = k then (k, v) else p)
  else st ++ [(k, v)]

/-- `pathlib.Path.stem`: the filename minus its suffix, where the suffix is
`name[i:]` for `i = name.rfind('.')` when `0 < i < len(name) - 1`. -/
def pathStem (name : String) : String :=
  let cs := name.data
  match cs.reverse.findIdx? (fun c => c == '.') with
  | none => name
  | some j =>
      let i := cs.length - 1 - j
      if 0 < i ∧ i < cs.length - 1 then String.mk (cs.take i) else name

/-- `hashlib.md5(stem.encode()).hexdigest()[:16]` (nodes.py 244): a
deterministic id derived from the filename stem; MD5 is modelled
collision-freely as an injective stem-determined encoding. -/
def md5Hex16 (s : String) : String := "md5:" ++ s

/-- `Path.glob("*.json")` membership: fnmatch `*` matches any characters
(dots included), so a name matches exactly when it ends in `.json`. -/
def globJsonMatch (k : String) : Bool := ".json".data.isSuffixOf k.data

/-! ## Template file store (nodes.py 213-262) -/

/-- `_save_template_to_file` (nodes.py 213-225): ensure the directory exists,
derive the filename from the sanitized name (default `'Unnamed'` when the
`name` key is absent), write the full record.  Returns the written path
(modelled relative to the storage root). -/
def _save_template_to_file (template_data : TemplateData) (fs : FS) : String × FS :=
  let dir : Store := fs.getD []
  let template_name := template_data.name.getD "Unnamed"
  let safe_name := _sanitize_filename template_name
  let file_path := safe_name ++ ".json"
  (file_path, some (storeWrite dir file_path (.valid template_data)))

/-- One iteration of the `_load_templates_from_directory` loop body: parse the
file; on failure skip it; default `name` to the stem and `id` to the derived
hash when absent; attach `_file_path`. -/
def parseLoadedFile (k : String) (c : FileContent) : Option TemplateData :=
  match c with
  | .invalid => none
  | .valid t =>
      let stem := pathStem k
      let t1 := if t.name.isNone then { t with name := some stem } else t
      let t2 := if t1.id.isNone then { t1 with id := some (md5Hex16 stem) } else t1
      some { t2 with filePath := some k }

/-- `_load_templates_from_directory` (nodes.py 228-250): empty when the
directory is absent; otherwise parse every `*.json` file, skipping files that
fail to parse. -/
def _load_templates_from_directory (fs : FS) : List TemplateData :=
  match fs with
  | none => []
  | some files =>
      (files.filter (fun p => globJsonMatch p.1)).filterMap
        (fun p => parseLoadedFile p.1 p.2)

/-- `_delete_template_file` (nodes.py 253-262): unlink the sanitized file if
it exists and return `true`, else return `false`. -/
def _delete_template_file (template_name : String) (fs : FS) : Bool × FS :=
  let safe_name := _sanitize_filename template_name
  let file_path := safe_name ++ ".json"
  match fs with
  | none => (false, none)
  | some files =>
      if files.any (fun p => p.1 == file_path) then
        (true, some (files.filter (fun p => !(p.1 == file_path))))
      else (false, some files)

/-! ## HTTP handlers over the file store -/

inductive TemplateSaveResp
  | error (message : String)
  | ok (file_path : String)
deriving DecidableEq, Repr

/-- nodes.py 331-335: set `updatedAt` to the current time only when the key
is absent; then set `createdAt` to the (possibly just set) `updatedAt`, only
when `createdAt` is absent. -/
def stampTimestamps (now : String) (template_data : TemplateData) : TemplateData :=
  let td1 := if template_data.updatedAt.isNone then
      { template_data with updatedAt := some now } else template_data
  if td1.createdAt.isNone then { td1 with createdAt := td1.updatedAt } else td1

/-- POST `/alexandria/templates/save` (nodes.py 319-349): error when the
`name` key is absent or falsy; otherwise stamp the timestamps and save. -/
def save_template_to_file (now : String) (template_data : TemplateData) (fs : FS) :
    TemplateSaveResp × FS :=
  if template_data.name.getD "" = "" then (.error "Template name is required", fs)
  else
    let r := _save_template_to_file (stampTimestamps now template_data) fs
    (.ok r.1, r.2)

inductive DeleteResp
  | error (message : String)
  | ok (message : String)
deriving DecidableEq, Repr

/-- POST `/alexandria/templates/delete` (nodes.py 351-379): error when `name`
is absent or falsy; otherwise delete, reporting not-found as an error-status
response rather than an exception. -/
def delete_template_file (name : Option String) (fs : FS) : DeleteResp × FS :=
  match name with
  | none => (.error "Template name is required", fs)
  | some nm =>
      if nm = "" then (.error "Template name is required", fs)
      else
        let r := _delete_template_file nm fs
        if r.1 then (.ok ("Template " ++ nm ++ " deleted"), r.2)
        else (.error ("Template " ++ nm ++ " not found"), r.2)

/-! ## Store lemmas -/

lemma globJsonMatch_append (s : String) : globJsonMatch (s ++ ".json") = true := by
  have h : (".json".data).IsSuffix ((s ++ ".json").data) := by
    rw [String.data_append]
    exact List.suffix_append _ _
  rw [globJsonMatch]
  exact List.isSuffixOf_iff_suffix.mpr h

lemma mem_storeWrite (st : Store) (k : String) (v : FileContent) :
    (k, v) ∈ storeWrite st k v := by
  rw [storeWrite]
  split
  next h =>
    rw [List.any_eq_true] at h
    obtain ⟨p, hp, hpk⟩ := h
    have hk : p.1 = k := by simpa using hpk
    exact List.mem_map.mpr ⟨p, hp, by rw [if_pos hk]⟩
  next h =>
    exact List.mem_append.mpr (Or.inr (List.mem_singleton.mpr rfl))

lemma eq_of_mem_storeWrite_key (st : Store) (k : String) (v : FileContent)
    (a : String × FileContent) (ha : a ∈ storeWrite st k v) (hk : a.1 = k) :
    a = (k, v) := by
  rw [storeWrite] at ha
  split at ha
  next h =>
    obtain ⟨p, _, hpa⟩ := List.mem_map.mp ha
    by_cases hpk : p.1 = k
    · rw [if_pos hpk] at hpa
      exact hpa.symm
    · rw [if_neg hpk] at hpa
      rw [hpa] at hpk
      exact absurd hk hpk
  next h =>
    rw [Bool.not_eq_true, List.any_eq_false] at h
    rcases List.mem_append.mp ha with hmem | hmem
    · exact absurd (by simpa using hk) (h a hmem)
    · exact List.mem_singleton.mp hmem

lemma countP_key_eq_count (st : Store) (k : String) :
    st.countP (fun p => p.1 == k) = (st.map Prod.fst).count k := by
  rw [List.count, List.countP_map]
  rfl

lemma countP_storeWrite_key (st : Store) (k : String) (v : FileContent)
    (hwf : StoreWF st) :
    (storeWrite st k v).countP (fun p => p.1 == k) = 1 := by
  have hle : st.countP (fun p => p.1 == k) ≤ 1 := by
    rw [countP_key_eq_count]
    exact List.nodup_iff_count_le_one.mp hwf k
  rw [storeWrite]
  split
  next h =>
    have hmap : (st.map (fun p => if p.1 = k then (k, v) else p)).countP
        (fun p => p.1 == k) = st.countP (fun p => p.1 == k) := by
      rw [List.countP_map]
      refine List.countP_congr fun p _ => ?_
      by_cases hpk : p.1 = k
      · simp [hpk]
      · simp [hpk]
    have hpos : 0 < st.countP (fun p => p.1 == k) := by
      rw [List.any_eq_true] at h
      obtain ⟨p, hp, hpk⟩ := h
      exact List.countP_pos_iff.mpr ⟨p, hp, hpk⟩
    rw [hmap]
    omega
  next h =>
    rw [List.countP_append]
    have hz : st.countP (fun p => p.1 == k) = 0 := by
      rw [List.countP_eq_zero]
      rw [Bool.not_eq_true, List.any_eq_false] at h
      exact h
    rw [hz]
    simp [List.countP_cons]

lemma filter_storeWrite_key (st : Store) (k : String) (v : FileContent)
    (hwf : StoreWF st) :
    (storeWrite st k v).filter (fun p => p.1 == k) = [(k, v)] := by
  have hlen : ((storeWrite st k v).filter (fun p => p.1 == k)).length = 1 := by
    rw [← List.countP_eq_length_filter]
    exact countP_storeWrite_key st k v hwf
  obtain ⟨a, ha⟩ := List.length_eq_one.mp hlen
  have hmem : a ∈ (storeWrite st k v).filter (fun p => p.1 == k) := by
    rw [ha]
    exact List.mem_singleton.mpr rfl
  obtain ⟨hin, hpred⟩ := List.mem_filter.mp hmem
  have hak : a.1 = k := by simpa using hpred
  rw [ha, eq_of_mem_storeWrite_key st k v a hin hak]

lemma storeWF_storeWrite (st : Store) (k : String) (v : FileContent)
    (hwf : StoreWF st) : StoreWF (storeWrite st k v) := by
  rw [StoreWF, storeWrite]
  split
  next h =>
    have hkeys : (st.map (fun p => if p.1 = k then (k, v) else p)).map Prod.fst =
        st.map Prod.fst := by
      rw [List.map_map]
      refine List.map_congr_left fun p _ => ?_
      by_cases hpk : p.1 = k
      · simp [hpk]
      · simp [hpk]
    rw [hkeys]
    exact hwf
  next h =>
    rw [List.map_append]
    rw [List.nodup_append]
    refine ⟨hwf, List.nodup_singleton k, ?_⟩
    intro x hx hxk
    simp only [List.map_cons, List.map_nil, List.mem_singleton] at hxk
    subst hxk
    obtain ⟨p, hp, hpk⟩ := List.mem_map.mp hx
    rw [Bool.not_eq_true, List.any_eq_false] at h
    exact h p hp (by simpa using hpk)

lemma any_filter_not (l : Store) (p : String × FileContent → Bool) :
    (l.filter (fun a => !p a)).any p = false := by
  rw [List.any_eq_false]
  intro a ha
  obtain ⟨_, hnp⟩ := List.mem_filter.mp ha
  simpa using hnp

lemma parseLoadedFile_valid_name_entries (k : String) (t u : TemplateData)
    (hu : parseLoadedFile k (FileContent.valid t) = some u)
    (hname : t.name.isNone = false) :
    u.name = t.name ∧ u.entries = t.entries := by
  rw [parseLoadedFile] at hu
  simp only [hname, Bool.false_eq_true, if_false] at hu
  by_cases hid : t.id.isNone = true
  · simp only [hid, if_true] at hu
    injection hu with h
    subst h
    exact ⟨rfl, rfl⟩
  · simp only [hid, if_false] at hu
    injection hu with h
    subst h
    exact ⟨rfl, rfl⟩

/-! ## Claims about the file store -/

/-- **C6.** Round-trip: for every template `t` with non-empty name,
`load_all()` after `save(t)` contains an entry whose name and entries equal
the name and entries of `t`. -/
theorem C6_round_trip (fs : FS) (t : TemplateData) (n : String)
    (hname : t.name = some n) (_hne : n ≠ "") :
    ∃ u ∈ _load_templates_from_directory (_save_template_to_file t fs).2,
      u.name = t.name ∧ u.entries = t.entries := by
  have hkey : (_save_template_to_file t fs).1 = _sanitize_filename n ++ ".json" := by
    rw [_save_template_to_file, hname]
    rfl
  have hfs : (_save_template_to_file t fs).2 =
      some (storeWrite (fs.getD []) (_sanitize_filename n ++ ".json")
        (FileContent.valid t)) := by
    rw [_save_template_to_file, hname]
    rfl
  rw [hfs]
  set k := _sanitize_filename n ++ ".json" with hk
  obtain ⟨u, hu⟩ : ∃ u, parseLoadedFile k (FileContent.valid t) = some u := ⟨_, rfl⟩
  have hnz : t.name.isNone = false := by rw [hname]; rfl
  refine ⟨u, ?_, parseLoadedFile_valid_name_entries k t u hu hnz⟩
  rw [_load_templates_from_directory]
  refine List.mem_filterMap.mpr ⟨(k, FileContent.valid t), ?_, hu⟩
  refine List.mem_filter.mpr ⟨mem_storeWrite _ _ _, ?_⟩
  exact globJsonMatch_append _

/-- **C7.** A template's identity on disk is its sanitized name: for two
templates with distinct names sanitizing to the same filename, saving the
first and then the second leaves exactly one file for that sanitized name,
and it holds the serialization of the second template. -/
theorem C7_collision_overwrite (fs : FS) (t1 t2 : TemplateData) (n1 n2 : String)
    (hwf : StoreWF (fs.getD []))
    (h1 : t1.name = some n1) (h2 : t2.name = some n2) (_hne : n1 ≠ n2)
    (hsan : _sanitize_filename n1 = _sanitize_filename n2) :
    (_save_template_to_file t2 (_save_template_to_file t1 fs).2).1 =
      (_save_template_to_file t1 fs).1 ∧
    ((_save_template_to_file t2 (_save_template_to_file t1 fs).2).2.getD []).filter
        (fun p => p.1 == _sanitize_filename n1 ++ ".json") =
      [(_sanitize_filename n1 ++ ".json", FileContent.valid t2)] := by
  have hp1 : (_save_template_to_file t1 fs).1 = _sanitize_filename n1 ++ ".json" := by
    rw [_save_template_to_file, h1]
    rfl
  have hfs1 : (_save_template_to_file t1 fs).2 =
      some (storeWrite (fs.getD []) (_sanitize_filename n1 ++ ".json")
        (FileContent.valid t1)) := by
    rw [_save_template_to_file, h1]
    rfl
  have hp2 : (_save_template_to_file t2 (_save_template_to_file t1 fs).2).1 =
      _sanitize_filename n2 ++ ".json" := by
    rw [_save_template_to_file, h2]
    rfl
  have hfs2 : (_save_template_to_file t2 (_save_template_to_file t1 fs).2).2 =
      some (storeWrite ((_save_template_to_file t1 fs).2.getD [])
        (_sanitize_filename n2 ++ ".json") (FileContent.valid t2)) := by
    rw [_save_template_to_file, h2]
    rfl
  constructor
  · rw [hp1, hp2, hsan]
  · rw [hfs2, hfs1]
    simp only [Option.getD_some]
    rw [← hsan]
    exact filter_storeWrite_key _ _ _ (storeWF_storeWrite _ _ _ hwf)

/-- **C8.** Delete is idempotent and not-found is a soft result: deleting an
existing sanitized file unlinks it and returns true, re-deleting returns
false; deleting a nonexistent name returns false (leaving the store
untouched) on both the first and the second call, and the HTTP handler
reports it as an error-status response rather than an exception. -/
theorem C8_delete_idempotent (fs : FS) (nm : String) (fs2 : FS) (nm2 : String)
    (hpresent : (fs.getD []).any
      (fun p => p.1 == _sanitize_filename nm ++ ".json") = true)
    (habsent : (fs2.getD []).any
      (fun p => p.1 == _sanitize_filename nm2 ++ ".json") = false)
    (hnm2 : nm2 ≠ "") :
    (_delete_template_file nm fs).1 = true ∧
    (_delete_template_file nm (_delete_template_file nm fs).2).1 = false ∧
    _delete_template_file nm2 fs2 = (false, fs2) ∧
    _delete_template_file nm2 (_delete_template_file nm2 fs2).2 = (false, fs2) ∧
    delete_template_file (some nm2) fs2 =
      (DeleteResp.error ("Template " ++ nm2 ++ " not found"), fs2) := by
  have habs : ∀ g : FS, (g.getD []).any
      (fun p => p.1 == _sanitize_filename nm2 ++ ".json") = false →
      _delete_template_file nm2 g = (false, g) := by
    intro g hg
    match g with
    | none => rfl
    | some files =>
        rw [_delete_template_file]
        simp only [Option.getD_some] at hg
        rw [if_neg (by rw [hg]; exact Bool.false_ne_true)]
  match fs, hpresent with
  | some files, hpresent =>
      simp only [Option.getD_some] at hpresent
      have hdel : _delete_template_file nm (some files) =
          (true, some (files.filter
            (fun p => !(p.1 == _sanitize_filename nm ++ ".json")))) := by
        rw [_delete_template_file]
        rw [if_pos hpresent]
      refine ⟨by rw [hdel], ?_, habs fs2 habsent, ?_, ?_⟩
      · rw [hdel, _delete_template_file]
        rw [if_neg ?_]
        rw [any_filter_not]
        exact Bool.false_ne_true
      · rw [habs fs2 habsent]
        exact habs fs2 habsent
      · rw [delete_template_file]
        rw [if_neg hnm2, habs fs2 habsent]
        simp

/-- **C9.** `load_all` partial-failure policy: a missing storage directory
yields the empty listing; a file that fails to parse is skipped exactly as if
it were not in the directory, and every parseable `*.json` file is still
returned. -/
theorem C9_load_partial_failure (pre post : Store) (k : String)
    (files : Store) (k2 : String) (t : TemplateData)
    (hmem : (k2, FileContent.valid t) ∈ files) (hglob : globJsonMatch k2 = true) :
    _load_templates_from_directory none = [] ∧
    _load_templates_from_directory (some (pre ++ (k, FileContent.invalid) :: post)) =
      _load_templates_from_directory (some (pre ++ post)) ∧
    ∃ u, parseLoadedFile k2 (FileContent.valid t) = some u ∧
      u ∈ _load_templates_from_directory (some files) := by
  refine ⟨rfl, ?_, ?_⟩
  · rw [_load_templates_from_directory, _load_templates_from_directory]
    by_cases hg : globJsonMatch k = true
    · rw [List.filter_append, List.filter_append, List.filter_cons]
      rw [if_pos hg]
      rw [List.filterMap_append, List.filterMap_append, List.filterMap_cons]
      rfl
    · rw [List.filter_append, List.filter_append, List.filter_cons]
      rw [if_neg hg]
  · obtain ⟨u, hu⟩ : ∃ u, parseLoadedFile k2 (FileContent.valid t) = some u := by
      rw [parseLoadedFile]
      exact ⟨_, rfl⟩
    refine ⟨u, hu, ?_⟩
    rw [_load_templates_from_directory]
    exact List.mem_filterMap.mpr ⟨(k2, FileContent.valid t),
      List.mem_filter.mpr ⟨hmem, hglob⟩, hu⟩

/-! ## Change-detection cache (nodes.py 36-49) -/

/-- `_template_state`: a Python dict, name ↦ content hash, in insertion
order. -/
abbrev Cache := List (String × ContentHash)

def MAX_TEMPLATE_STATE_ENTRIES : Nat := 200

/-- `int(MAX_TEMPLATE_STATE_ENTRIES * 0.8)`: the float product `200 * 0.8`
rounds to exactly `160.0`, so the truncation yields 160. -/
def evictKeepCount : Nat := MAX_TEMPLATE_STATE_ENTRIES * 4 / 5

/-- `_evict_oldest_template_state` (nodes.py 40-49): when strictly over the
limit, delete the oldest `len - 160` keys in insertion order. -/
def _evict_oldest_template_state (st : Cache) : Cache :=
  if MAX_TEMPLATE_STATE_ENTRIES < st.length then
    st.drop (st.length - evictKeepCount)
  else st

/-- Python dict lookup (`_template_state[template_name]` guarded by `in`). -/
def dictGet (st : Cache) (k : String) : Option ContentHash :=
  (st.find? (fun p => p.1 == k)).map (fun p => p.2)

/-- Python dict assignment: updating an existing key keeps its insertion
position; a new key is appended at the end. -/
def dictSet (st : Cache) (k : String) (v : ContentHash) : Cache :=
  if st.any (fun p => p.1 == k) then
    st.map (fun p => if p.1 = k then (k, v) else p)
  else st ++ [(k, v)]

/-! ## POST /alexandria/save (nodes.py 418-472) -/

inductive SaveApiResp
  | error (message : String)
  | skipped
  | ok (template_name : String) (hash : ContentHash) (entry_count : Nat)
      (file_path : String)
deriving DecidableEq, Repr

/-- POST `/alexandria/save`: hash the entries; if the stored hash for the
name equals the new hash return `skipped` without mutating anything;
otherwise store the hash, run the eviction check, write the file and return
`ok`. -/
def save_template (now : String) (template_name_field : Option String)
    (entries : List Entry) (st : Cache) (fs : FS) : SaveApiResp × Cache × FS :=
  let template_name := template_name_field.getD "Unnamed"
  if entries = [] then (.error "No entries provided", st, fs)
  else
    let new_hash := contentHash entries
    if dictGet st template_name = some new_hash then
      (.skipped, st, fs)
    else
      let st1 := _evict_oldest_template_state (dictSet st template_name new_hash)
      let template_data : TemplateData :=
        { name := some template_name, entries := some entries, id := none,
          createdAt := none, updatedAt := some now,
          hash := some new_hash, filePath := none }
      let r := _save_template_to_file template_data fs
      (.ok template_name new_hash entries.length r.1, st1, r.2)

/-! ## POST /alexandria/templates/sync (nodes.py 381-416) -/

/-- `{t['name'] for t in file_templates}` (nodes.py 393): every loaded
template carries a `name` (defaulted from the stem when absent). -/
def file_template_names (fs : FS) : List String :=
  (_load_templates_from_directory fs).filterMap (fun t => t.name)

/-- The merge-loop guard (nodes.py 398): `template.get('name')` is truthy and
the raw name is not in the on-disk name set. -/
def syncCond (names : List String) (t : TemplateData) : Bool :=
  match t.name with
  | none => false
  | some nm => !(nm == "") && !(names.contains nm)

/-- One step of the merge loop, acting on (directory, saved_count, trace of
templates passed to `_save_template_to_file`). -/
def syncStep (names : List String) (acc : FS × Nat × List TemplateData)
    (t : TemplateData) : FS × Nat × List TemplateData :=
  if syncCond names t then
    ((_save_template_to_file t acc.1).2, acc.2.1 + 1, acc.2.2 ++ [t])
  else acc

structure SyncResult where
  templates : List TemplateData
  saved_count : Nat
  total_count : Nat
  fs : FS
  writes : List TemplateData

/-- POST `/alexandria/templates/sync`: load the on-disk templates, take their
name set once, save every browser template with a truthy name not in that
set, and return the reloaded merged listing.  `writes` records the save
calls the loop made, in order (instrumentation only: it does not influence
the computation). -/
def sync_templates (browser_templates : List TemplateData) (fs : FS) : SyncResult :=
  let names := file_template_names fs
  let r := browser_templates.foldl (syncStep names) (fs, 0, [])
  let all_templates := _load_templates_from_directory r.1
  { templates := all_templates, saved_count := r.2.1,
    total_count := all_templates.length, fs := r.1, writes := r.2.2 }

/-! ## Cache lemmas -/

lemma evict_of_le (st : Cache) (h : st.length ≤ MAX_TEMPLATE_STATE_ENTRIES) :
    _evict_oldest_template_state st = st := by
  rw [_evict_oldest_template_state, if_neg (by omega)]

lemma dictGet_fresh (st : Cache) (nm : String) (hf : ∀ q ∈ st, q.1 ≠ nm) :
    dictGet st nm = none := by
  induction st with
  | nil => rfl
  | cons p l ih =>
      have hp : (p.1 == nm) = false := by
        rw [beq_eq_false_iff_ne]
        exact hf p (List.mem_cons_self p l)
      rw [dictGet, List.find?_cons_of_neg _ (by rw [hp]; exact Bool.false_ne_true)]
      exact ih fun q hq => hf q (List.mem_cons_of_mem p hq)

lemma dictGet_append_right (l : Cache) (nm : String) (h : ContentHash)
    (hfresh : ∀ p ∈ l, p.1 ≠ nm) : dictGet (l ++ [(nm, h)]) nm = some h := by
  induction l with
  | nil =>
      rw [List.nil_append, dictGet, List.find?_cons_of_pos _ (by simp)]
      rfl
  | cons p l ih =>
      have hp : (p.1 == nm) = false := by
        rw [beq_eq_false_iff_ne]
        exact hfresh p (List.mem_cons_self p l)
      rw [List.cons_append, dictGet,
        List.find?_cons_of_neg _ (by rw [hp]; exact Bool.false_ne_true)]
      exact ih fun q hq => hfresh q (List.mem_cons_of_mem p hq)

lemma find?_map_set (st : Cache) (nm : String) (h : ContentHash)
    (hany : st.any (fun p => p.1 == nm) = true) :
    (st.map (fun p => if p.1 = nm then (nm, h) else p)).find?
      (fun p => p.1 == nm) = some (nm, h) := by
  induction st with
  | nil => cases hany
  | cons p l ih =>
      rw [List.map_cons]
      by_cases hp : p.1 = nm
      · rw [if_pos hp, List.find?_cons_of_pos _ (by simp)]
      · rw [if_neg hp,
          List.find?_cons_of_neg _ (by simp [hp])]
        refine ih ?_
        rw [List.any_cons] at hany
        have hpb : (p.1 == nm) = false := by rw [beq_eq_false_iff_ne]; exact hp
        rw [hpb, Bool.false_or] at hany
        exact hany

lemma dictGet_dictSet_self (st : Cache) (nm : String) (h : ContentHash) :
    dictGet (dictSet st nm h) nm = some h := by
  rw [dictSet]
  split
  next hany =>
    rw [dictGet, find?_map_set st nm h hany]
    rfl
  next hany =>
    rw [Bool.not_eq_true, List.any_eq_false] at hany
    refine dictGet_append_right st nm h fun p hp => ?_
    simpa using hany p hp

lemma length_dictSet_mem (st : Cache) (nm : String) (h : ContentHash)
    (hany : st.any (fun p => p.1 == nm) = true) :
    (dictSet st nm h).length = st.length := by
  rw [dictSet, if_pos hany, List.length_map]

lemma dictGet_evict_dictSet (st : Cache) (nm : String) (h : ContentHash)
    (hlen : st.length ≤ MAX_TEMPLATE_STATE_ENTRIES) :
    dictGet (_evict_oldest_template_state (dictSet st nm h)) nm = some h := by
  by_cases hany : st.any (fun p => p.1 == nm) = true
  · rw [evict_of_le _ (by rw [length_dictSet_mem st nm h hany]; exact hlen)]
    exact dictGet_dictSet_self st nm h
  · rw [Bool.not_eq_true, List.any_eq_false] at hany
    have hfresh : ∀ p ∈ st, p.1 ≠ nm := fun p hp => by
      simpa using hany p hp
    have hanyf : st.any (fun p => p.1 == nm) = false := List.any_eq_false.mpr hany
    have hset : dictSet st nm h = st ++ [(nm, h)] := by
      rw [dictSet, if_neg (by rw [hanyf]; exact Bool.false_ne_true)]
    rw [hset, _evict_oldest_template_state]
    split
    next hgt =>
      have hlen1 : (st ++ [(nm, h)]).length = st.length + 1 := by simp
      have h160 : evictKeepCount = 160 := rfl
      have hle : (st ++ [(nm, h)]).length - evictKeepCount ≤ st.length := by
        rw [hlen1, h160]
        omega
      rw [List.drop_append_of_le_length hle]
      exact dictGet_append_right _ nm h fun p hp =>
        hfresh p (List.mem_of_mem_drop hp)
    next hgt => exact dictGet_append_right st nm h hfresh

/-! ## Claims about the change-detection cache -/

/-- **C5.** Diff-cache behaviour of POST `/alexandria/save`: from any
reachable cache state (within the cap) whose stored hash for the name is not
the hash of the submitted entries, the first call returns ok with the content
hash; an identical second call returns skipped, writing no file and mutating
neither the cache nor the store; a third call with changed entries content
returns ok again. -/
theorem C5_save_skip_change (now1 now2 now3 nm : String)
    (es es2 : List Entry) (st : Cache) (fs : FS)
    (hlen : st.length ≤ MAX_TEMPLATE_STATE_ENTRIES)
    (hfirst : dictGet st nm ≠ some (contentHash es))
    (hes : es ≠ []) (hes2 : es2 ≠ [])
    (hdiff : contentHash es2 ≠ contentHash es) :
    (save_template now1 (some nm) es st fs).1 =
      SaveApiResp.ok nm (contentHash es) es.length
        (_sanitize_filename nm ++ ".json") ∧
    save_template now2 (some nm) es
        (save_template now1 (some nm) es st fs).2.1
        (save_template now1 (some nm) es st fs).2.2 =
      (SaveApiResp.skipped,
       (save_template now1 (some nm) es st fs).2.1,
       (save_template now1 (some nm) es st fs).2.2) ∧
    (save_template now3 (some nm) es2
        (save_template now1 (some nm) es st fs).2.1
        (save_template now1 (some nm) es st fs).2.2).1 =
      SaveApiResp.ok nm (contentHash es2) es2.length
        (_sanitize_filename nm ++ ".json") := by
  have h1 : save_template now1 (some nm) es st fs =
      (SaveApiResp.ok nm (contentHash es) es.length
        (_sanitize_filename nm ++ ".json"),
       _evict_oldest_template_state (dictSet st nm (contentHash es)),
       some (storeWrite (fs.getD []) (_sanitize_filename nm ++ ".json")
         (FileContent.valid
           { name := some nm, entries := some es, id := none, createdAt := none,
             updatedAt := some now1, hash := some (contentHash es),
             filePath := none }))) := by
    rw [save_template]
    simp only [Option.getD_some]
    rw [if_neg hes, if_neg hfirst]
    rfl
  have hget : dictGet (save_template now1 (some nm) es st fs).2.1 nm =
      some (contentHash es) := by
    rw [h1]
    exact dictGet_evict_dictSet st nm (contentHash es) hlen
  refine ⟨by rw [h1], ?_, ?_⟩
  · rw [save_template]
    simp only [Option.getD_some]
    rw [if_neg hes, if_pos hget]
  · rw [save_template]
    simp only [Option.getD_some]
    rw [if_neg hes2,
      if_neg (by rw [hget]; exact fun hc => hdiff (Option.some.inj hc).symm)]
    rfl

/-- Witness for C5 at the spec scenario: `template_name = "Foo"`, entries
`["a"]` then changed entries `["b"]`, starting from the empty cache. -/
theorem C5_save_skip_change_witness :
    ([] : Cache).length ≤ MAX_TEMPLATE_STATE_ENTRIES ∧
    dictGet [] "Foo" ≠ some (contentHash ["a"]) ∧
    (["a"] : List Entry) ≠ [] ∧ (["b"] : List Entry) ≠ [] ∧
    contentHash ["b"] ≠ contentHash ["a"] ∧
    ((save_template "t1" (some "Foo") ["a"] [] none).1 =
      SaveApiResp.ok "Foo" (contentHash ["a"]) 1
        (_sanitize_filename "Foo" ++ ".json") ∧
    save_template "t2" (some "Foo") ["a"]
        (save_template "t1" (some "Foo") ["a"] [] none).2.1
        (save_template "t1" (some "Foo") ["a"] [] none).2.2 =
      (SaveApiResp.skipped,
       (save_template "t1" (some "Foo") ["a"] [] none).2.1,
       (save_template "t1" (some "Foo") ["a"] [] none).2.2) ∧
    (save_template "t3" (some "Foo") ["b"]
        (save_template "t1" (some "Foo") ["a"] [] none).2.1
        (save_template "t1" (some "Foo") ["a"] [] none).2.2).1 =
      SaveApiResp.ok "Foo" (contentHash ["b"]) 1
        (_sanitize_filename "Foo" ++ ".json")) :=
  ⟨by decide, by decide, by decide, by decide, by decide,
   C5_save_skip_change "t1" "t2" "t3" "Foo" ["a"] ["b"] [] none
     (by decide) (by decide) (by decide) (by decide) (by decide)⟩

/-- A sequence of POST `/alexandria/save` requests (name, entries), threaded
through cache and store. -/
def saveFold (now : String) (ps : List (String × List Entry))
    (acc : Cache × FS) : Cache × FS :=
  ps.foldl (fun acc p =>
    let r := save_template now (some p.1) p.2 acc.1 acc.2
    (r.2.1, r.2.2)) acc

lemma save_template_cache_fresh (now nm : String) (es : List Entry)
    (st : Cache) (fs : FS) (hfresh : ∀ q ∈ st, q.1 ≠ nm)
    (hlen : st.length + 1 ≤ MAX_TEMPLATE_STATE_ENTRIES) (hes : es ≠ []) :
    (save_template now (some nm) es st fs).2.1 = st ++ [(nm, contentHash es)] := by
  have hanyf : st.any (fun p => p.1 == nm) = false :=
    List.any_eq_false.mpr fun q hq => by simpa using hfresh q hq
  have hset : dictSet st nm (contentHash es) = st ++ [(nm, contentHash es)] := by
    rw [dictSet, if_neg (by rw [hanyf]; exact Bool.false_ne_true)]
  have hnone : dictGet st nm = none := dictGet_fresh st nm hfresh
  rw [save_template]
  simp only [Option.getD_some]
  rw [if_neg hes,
    if_neg (by rw [hnone]; exact fun hc => Option.noConfusion hc)]
  show _evict_oldest_template_state (dictSet st nm (contentHash es)) = _
  rw [hset, evict_of_le _ (by simpa using hlen)]

lemma saveFold_cache_fresh (now : String) :
    ∀ (ps : List (String × List Entry)) (st : Cache) (fs : FS),
    (st.map Prod.fst ++ ps.map Prod.fst).Nodup →
    st.length + ps.length ≤ MAX_TEMPLATE_STATE_ENTRIES →
    (∀ p ∈ ps, p.2 ≠ []) →
    (saveFold now ps (st, fs)).1 =
      st ++ ps.map (fun p => (p.1, contentHash p.2)) := by
  intro ps
  induction ps with
  | nil => intro st fs _ _ _; simp [saveFold]
  | cons p ps ih =>
      intro st fs hnd hlen hes
      have hdisj : (st.map Prod.fst).Disjoint (p.1 :: ps.map Prod.fst) := by
        rw [List.map_cons] at hnd
        exact (List.nodup_append.mp hnd).2.2
      have hfresh : ∀ q ∈ st, q.1 ≠ p.1 := by
        intro q hq hqe
        exact hdisj (List.mem_map_of_mem Prod.fst hq)
          (by rw [← hqe] at *; exact List.mem_cons_self _ _)
      have hstep : (save_template now (some p.1) p.2 st fs).2.1 =
          st ++ [(p.1, contentHash p.2)] :=
        save_template_cache_fresh now p.1 p.2 st fs hfresh
          (by rw [List.length_cons] at hlen; omega)
          (hes p (List.mem_cons_self p ps))
      rw [saveFold, List.foldl_cons]
      show (saveFold now ps
        ((save_template now (some p.1) p.2 st fs).2.1,
         (save_template now (some p.1) p.2 st fs).2.2)).1 = _
      rw [hstep]
      rw [ih (st ++ [(p.1, contentHash p.2)])
        (save_template now (some p.1) p.2 st fs).2.2 ?_ ?_
        (fun q hq => hes q (List.mem_cons_of_mem p hq))]
      · rw [List.append_assoc, List.singleton_append, List.map_cons]
      · rw [List.map_append, List.map_cons, List.map_nil, List.append_assoc,
          List.singleton_append]
        rw [List.map_cons] at hnd
        exact hnd
      · rw [List.length_append, List.length_singleton]
        rw [List.length_cons] at hlen
        omega

lemma saveFold_evicts_201 (now : String) (ps : List (String × List Entry))
    (fs0 : FS) (hlen : ps.length = 201) (hnd : (ps.map Prod.fst).Nodup)
    (hes : ∀ p ∈ ps, p.2 ≠ []) :
    (saveFold now ps ([], fs0)).1 =
      (ps.map (fun p => (p.1, contentHash p.2))).drop 41 := by
  have hne : ps ≠ [] := by
    intro h
    rw [h] at hlen
    cases hlen
  obtain ⟨ps0, pl, heq⟩ : ∃ ps0 pl, ps = ps0 ++ [pl] :=
    ⟨ps.dropLast, ps.getLast hne, (List.dropLast_append_getLast hne).symm⟩
  subst heq
  have hlen0 : ps0.length = 200 := by
    rw [List.length_append, List.length_singleton] at hlen
    omega
  have hnd0 : (ps0.map Prod.fst).Nodup := by
    rw [List.map_append] at hnd
    exact (List.nodup_append.mp hnd).1
  have hfold0 : (saveFold now ps0 ([], fs0)).1 =
      ps0.map (fun p => (p.1, contentHash p.2)) := by
    have := saveFold_cache_fresh now ps0 [] fs0 (by simpa using hnd0)
      (by rw [hlen0]; rfl) (fun q hq => hes q (List.mem_append_left _ hq))
    simpa using this
  have hfoldapp : saveFold now (ps0 ++ [pl]) ([], fs0) =
      saveFold now [pl] (saveFold now ps0 ([], fs0)) := by
    rw [saveFold, saveFold, saveFold, List.foldl_append]
  rw [hfoldapp]
  have hc0len : (saveFold now ps0 ([], fs0)).1.length = 200 := by
    rw [hfold0, List.length_map, hlen0]
  have hfresh : ∀ q ∈ (saveFold now ps0 ([], fs0)).1, q.1 ≠ pl.1 := by
    intro q hq
    rw [hfold0] at hq
    obtain ⟨p0, hp0, hp0q⟩ := List.mem_map.mp hq
    rw [List.map_append, List.map_cons, List.map_nil] at hnd
    have hdisj := (List.nodup_append.mp hnd).2.2
    rw [← hp0q]
    exact fun hcontra => hdisj (List.mem_map_of_mem Prod.fst hp0)
      (by rw [← hcontra]; exact List.mem_cons_self _ _)
  have hnone : dictGet (saveFold now ps0 ([], fs0)).1 pl.1 = none :=
    dictGet_fresh _ pl.1 hfresh
  have hanyf : (saveFold now ps0 ([], fs0)).1.any (fun p => p.1 == pl.1) = false :=
    List.any_eq_false.mpr fun q hq => by simpa using hfresh q hq
  have hset : dictSet (saveFold now ps0 ([], fs0)).1 pl.1 (contentHash pl.2) =
      (saveFold now ps0 ([], fs0)).1 ++ [(pl.1, contentHash pl.2)] := by
    rw [dictSet, if_neg (by rw [hanyf]; exact Bool.false_ne_true)]
  have hplen : ((saveFold now ps0 ([], fs0)).1 ++
      [(pl.1, contentHash pl.2)]).length = 201 := by
    rw [List.length_append, List.length_singleton, hc0len]
  have hstep : (saveFold now [pl] (saveFold now ps0 ([], fs0))).1 =
      ((saveFold now ps0 ([], fs0)).1 ++ [(pl.1, contentHash pl.2)]).drop 41 := by
    show (save_template now (some pl.1) pl.2 (saveFold now ps0 ([], fs0)).1
      (saveFold now ps0 ([], fs0)).2).2.1 = _
    rw [save_template]
    simp only [Option.getD_some]
    rw [if_neg (hes pl (List.mem_append_right _ (List.mem_singleton.mpr rfl))),
      if_neg (by rw [hnone]; exact fun hc => Option.noConfusion hc)]
    show _evict_oldest_template_state
      (dictSet (saveFold now ps0 ([], fs0)).1 pl.1 (contentHash pl.2)) = _
    rw [hset, _evict_oldest_template_state, if_pos (by rw [hplen]; decide), hplen]
    rfl
  rw [hstep, hfold0, List.map_append, List.map_cons, List.map_nil]

/-- **C4.** Cache eviction: when an insertion pushes the change-detection
cache over the 200-entry cap, the eviction pass removes exactly
`count - floor(200 * 0.8)` entries, the oldest in insertion order, leaving
160; saving 201 distinct fresh names through POST `/alexandria/save` leaves
exactly the 160 most-recently-inserted entries; and eviction happens only as
a side effect of insertion — a skipped (unchanged) save leaves the cache
untouched. -/
theorem C4_cache_eviction (now now2 nm : String) (st st2 : Cache)
    (ps : List (String × List Entry)) (es : List Entry) (g fs0 : FS)
    (hst : MAX_TEMPLATE_STATE_ENTRIES < st.length)
    (hps : ps.length = 201) (hnd : (ps.map Prod.fst).Nodup)
    (hes : ∀ p ∈ ps, p.2 ≠ [])
    (hskip : dictGet st2 nm = some (contentHash es)) (hesne : es ≠ []) :
    _evict_oldest_template_state st = st.drop (st.length - evictKeepCount) ∧
    (_evict_oldest_template_state st).length = 160 ∧
    (saveFold now ps ([], fs0)).1 =
      (ps.map (fun p => (p.1, contentHash p.2))).drop 41 ∧
    (saveFold now ps ([], fs0)).1.length = 160 ∧
    save_template now2 (some nm) es st2 g = (SaveApiResp.skipped, st2, g) := by
  have h200 : MAX_TEMPLATE_STATE_ENTRIES = 200 := rfl
  have h160 : evictKeepCount = 160 := rfl
  have h1 : _evict_oldest_template_state st =
      st.drop (st.length - evictKeepCount) := by
    rw [_evict_oldest_template_state, if_pos hst]
  have h3 := saveFold_evicts_201 now ps fs0 hps hnd hes
  rw [h200] at hst
  refine ⟨h1, ?_, h3, ?_, ?_⟩
  · rw [h1, List.length_drop, h160]
    omega
  · rw [h3, List.length_drop, List.length_map, hps]
  · rw [save_template]
    simp only [Option.getD_some]
    rw [if_neg hesne, if_pos hskip]

set_option maxRecDepth 10000 in
/-- Witness for C4: a cache of 201 distinct single-character names (evicting
to 160), the 201-request scenario, and a skipped save on a one-entry cache. -/
theorem C4_cache_eviction_witness :
    MAX_TEMPLATE_STATE_ENTRIES <
      ((List.range 201).map
        (fun i => (String.mk [Char.ofNat (65 + i)], ([] : ContentHash)))).length ∧
    ((List.range 201).map
      (fun i => (String.mk [Char.ofNat (65 + i)],
        (["e"] : List Entry)))).length = 201 ∧
    (((List.range 201).map
      (fun i => (String.mk [Char.ofNat (65 + i)],
        (["e"] : List Entry)))).map Prod.fst).Nodup ∧
    (∀ p ∈ (List.range 201).map
        (fun i => (String.mk [Char.ofNat (65 + i)], (["e"] : List Entry))),
      p.2 ≠ []) ∧
    dictGet [("Foo", contentHash ["a"])] "Foo" = some (contentHash ["a"]) ∧
    (["a"] : List Entry) ≠ [] ∧
    (_evict_oldest_template_state ((List.range 201).map
      (fun i => (String.mk [Char.ofNat (65 + i)],
        ([] : ContentHash))))).length = 160 :=
  ⟨by decide, by decide, by decide, by decide, by decide, by decide,
   (C4_cache_eviction "t1" "t2" "Foo"
      ((List.range 201).map
        (fun i => (String.mk [Char.ofNat (65 + i)], ([] : ContentHash))))
      [("Foo", contentHash ["a"])]
      ((List.range 201).map
        (fun i => (String.mk [Char.ofNat (65 + i)], (["e"] : List Entry))))
      ["a"] none none
      (by decide) (by decide) (by decide) (by decide) (by decide)
      (by decide)).2.1⟩

/-! ## Claims about the HTTP save and sync handlers -/

lemma save_to_file_of_name (td : TemplateData) (fs : FS) (n : String)
    (hname : td.name = some n) :
    _save_template_to_file td fs =
      (_sanitize_filename n ++ ".json",
       some (storeWrite (fs.getD []) (_sanitize_filename n ++ ".json")
         (FileContent.valid td))) := by
  rw [_save_template_to_file, hname]
  rfl

lemma stampTimestamps_spec (now : String) (td : TemplateData) :
    (stampTimestamps now td).name = td.name ∧
    (stampTimestamps now td).entries = td.entries ∧
    (stampTimestamps now td).updatedAt =
      (if td.updatedAt.isNone then some now else td.updatedAt) ∧
    (stampTimestamps now td).createdAt =
      (if td.createdAt.isNone then
        (if td.updatedAt.isNone then some now else td.updatedAt)
      else td.createdAt) := by
  rw [stampTimestamps]
  by_cases hU : td.updatedAt.isNone <;> by_cases hC : td.createdAt.isNone <;>
    simp [hU, hC]

/-- **C1 counterexample.** A request to POST `/alexandria/templates/save`
that already carries `updatedAt = "2020-01-01T00:00:00"`, saved at
`"2025-06-01T00:00:00"`, is stored with the carried `updatedAt` — the save
does not refresh it to the time of the save. -/
theorem C1_counterexample :
    (save_template_to_file "2025-06-01T00:00:00"
      { name := some "A", entries := some ["e1"], id := none, createdAt := none,
        updatedAt := some "2020-01-01T00:00:00", hash := none, filePath := none }
      none).2 =
      some [("A.json", FileContent.valid
        { name := some "A", entries := some ["e1"], id := none,
          createdAt := some "2020-01-01T00:00:00",
          updatedAt := some "2020-01-01T00:00:00", hash := none,
          filePath := none })] ∧
    (some "2020-01-01T00:00:00" : Option String) ≠ some "2025-06-01T00:00:00" :=
  ⟨by decide, by decide⟩

/-- **C1 (amended).** For every POST `/alexandria/templates/save` request
with a non-empty name, the save stamps `updatedAt` with the save time only
when the request body lacks `updatedAt` — a body-carried value is preserved
unchanged — and `createdAt` defaults to the resulting `updatedAt` when
absent; the stamped record is written under the sanitized name. -/
theorem C1_templates_save_timestamps (now : String) (td : TemplateData)
    (fs : FS) (n : String) (hname : td.name = some n) (hne : n ≠ "") :
    save_template_to_file now td fs =
      (TemplateSaveResp.ok (_sanitize_filename n ++ ".json"),
       some (storeWrite (fs.getD []) (_sanitize_filename n ++ ".json")
         (FileContent.valid (stampTimestamps now td)))) ∧
    (stampTimestamps now td).updatedAt =
      (if td.updatedAt.isNone then some now else td.updatedAt) ∧
    (stampTimestamps now td).createdAt =
      (if td.createdAt.isNone then
        (if td.updatedAt.isNone then some now else td.updatedAt)
      else td.createdAt) ∧
    (stampTimestamps now td).name = td.name ∧
    (stampTimestamps now td).entries = td.entries := by
  have hspec := stampTimestamps_spec now td
  refine ⟨?_, hspec.2.2.1, hspec.2.2.2, hspec.1, hspec.2.1⟩
  rw [save_template_to_file, if_neg (by rw [hname]; exact hne)]
  show (TemplateSaveResp.ok (_save_template_to_file (stampTimestamps now td) fs).1,
        (_save_template_to_file (stampTimestamps now td) fs).2) = _
  rw [save_to_file_of_name (stampTimestamps now td) fs n (by rw [hspec.1, hname])]

/-- Witness for the amended C1: a body carrying `updatedAt = "2020-01-01"`
keeps it verbatim when saved at `"2025-06-01"`. -/
theorem C1_templates_save_witness :
    ({ name := some "A", entries := some ["e1"], id := none, createdAt := none,
       updatedAt := some "2020-01-01", hash := none,
       filePath := none } : TemplateData).name = some "A" ∧
    ("A" : String) ≠ "" ∧
    (stampTimestamps "2025-06-01"
      { name := some "A", entries := some ["e1"], id := none, createdAt := none,
        updatedAt := some "2020-01-01", hash := none,
        filePath := none }).updatedAt = some "2020-01-01" :=
  ⟨rfl, by decide,
   (C1_templates_save_timestamps "2025-06-01"
      { name := some "A", entries := some ["e1"], id := none, createdAt := none,
        updatedAt := some "2020-01-01", hash := none, filePath := none }
      none "A" rfl (by decide)).2.1⟩

/-- `saveAll ws fs`: the directory after the sync loop saves each template in
`ws`, in order. -/
def saveAll (ws : List TemplateData) (fs : FS) : FS :=
  ws.foldl (fun g t => (_save_template_to_file t g).2) fs

lemma sync_fold_spec (names : List String) :
    ∀ (ts : List TemplateData) (fs0 : FS) (c0 : Nat) (w0 : List TemplateData),
    ts.foldl (syncStep names) (fs0, c0, w0) =
      (saveAll (ts.filter (syncCond names)) fs0,
       c0 + (ts.filter (syncCond names)).length,
       w0 ++ ts.filter (syncCond names)) := by
  intro ts
  induction ts with
  | nil =>
      intro fs0 c0 w0
      simp [saveAll]
  | cons t ts ih =>
      intro fs0 c0 w0
      rw [List.foldl_cons, List.filter_cons]
      by_cases hc : syncCond names t = true
      · rw [if_pos hc]
        have hstep : syncStep names (fs0, c0, w0) t =
            ((_save_template_to_file t fs0).2, c0 + 1, w0 ++ [t]) := by
          rw [syncStep, if_pos hc]
        rw [hstep, ih]
        have hsa : saveAll (t :: ts.filter (syncCond names)) fs0 =
            saveAll (ts.filter (syncCond names))
              (_save_template_to_file t fs0).2 := rfl
        rw [hsa]
        simp only [List.length_cons, Prod.mk.injEq]
        refine ⟨trivial, by omega, ?_⟩
        rw [List.append_assoc]
        rfl
      · rw [if_neg hc]
        have hstep : syncStep names (fs0, c0, w0) t = (fs0, c0, w0) := by
          rw [syncStep, if_neg hc]
        rw [hstep, ih]

lemma filter_map_set_ne (st : Store) (kt k : String) (v : FileContent)
    (hne : kt ≠ k) :
    (st.map (fun p => if p.1 = kt then (kt, v) else p)).filter
      (fun p => p.1 == k) = st.filter (fun p => p.1 == k) := by
  induction st with
  | nil => rfl
  | cons q st ih =>
      rw [List.map_cons, List.filter_cons, List.filter_cons]
      by_cases hq : q.1 = kt
      · have hkt : (kt == k) = false := by
          rw [beq_eq_false_iff_ne]
          exact hne
        have h1 : ((if q.1 = kt then (kt, v) else q).1 == k) = false := by
          rw [if_pos hq]
          exact hkt
        have h2 : (q.1 == k) = false := by rw [hq]; exact hkt
        simp only [h1, h2, Bool.false_eq_true, if_false]
        exact ih
      · rw [if_neg hq]
        by_cases hqk : (q.1 == k) = true
        · simp only [hqk, if_true]
          rw [ih]
        · have h2 : (q.1 == k) = false := by
            rwa [Bool.not_eq_true] at hqk
          simp only [h2, Bool.false_eq_true, if_false]
          exact ih

lemma filter_storeWrite_ne (st : Store) (kt k : String) (v : FileContent)
    (hne : kt ≠ k) :
    (storeWrite st kt v).filter (fun p => p.1 == k) =
      st.filter (fun p => p.1 == k) := by
  rw [storeWrite]
  split
  next h => exact filter_map_set_ne st kt k v hne
  next h =>
    rw [List.filter_append]
    have hkt : ([(kt, v)].filter (fun p => p.1 == k)) = [] := by
      simp [beq_eq_false_iff_ne.mpr hne]
    rw [hkt, List.append_nil]

lemma filter_saveAll_ne (k : String) :
    ∀ (ws : List TemplateData) (g : FS),
    (∀ t ∈ ws, _sanitize_filename (t.name.getD "Unnamed") ++ ".json" ≠ k) →
    ((saveAll ws g).getD []).filter (fun p => p.1 == k) =
      (g.getD []).filter (fun p => p.1 == k) := by
  intro ws
  induction ws with
  | nil => intro g _; rfl
  | cons t ws ih =>
      intro g hno
      rw [saveAll, List.foldl_cons]
      show ((saveAll ws (_save_template_to_file t g).2).getD []).filter
        (fun p => p.1 == k) = _
      rw [ih (_save_template_to_file t g).2
        (fun q hq => hno q (List.mem_cons_of_mem t hq))]
      have hsave : (_save_template_to_file t g).2 =
          some (storeWrite (g.getD [])
            (_sanitize_filename (t.name.getD "Unnamed") ++ ".json")
            (FileContent.valid t)) := rfl
      rw [hsave, Option.getD_some]
      exact filter_storeWrite_ne _ _ _ _ (hno t (List.mem_cons_self t ws))

/-- **C2 counterexample.** The on-disk file `A_.json` holds the template
named `"A/"`; the sync request contains a template named `"A/"` (skipped,
name present) and one named `"A?"` (fresh name).  `"A?"` sanitizes to the
same filename `A_.json`, so the sync overwrites the on-disk template named
`"A/"` even though that name occurs in the request — refuting the claim that
such templates are never overwritten. -/
theorem C2_sync_counterexample :
    (sync_templates
      [{ name := some "A/", entries := some ["2"], id := none, createdAt := none,
         updatedAt := none, hash := none, filePath := none },
       { name := some "A?", entries := some ["3"], id := none, createdAt := none,
         updatedAt := none, hash := none, filePath := none }]
      (some [("A_.json", FileContent.valid
        { name := some "A/", entries := some ["1"], id := none, createdAt := none,
          updatedAt := none, hash := none, filePath := none })])).fs =
      some [("A_.json", FileContent.valid
        { name := some "A?", entries := some ["3"], id := none, createdAt := none,
          updatedAt := none, hash := none, filePath := none })] ∧
    ("A_.json", FileContent.valid
      { name := some "A/", entries := some ["1"], id := none, createdAt := none,
        updatedAt := none, hash := none, filePath := none }) ∉
      ((sync_templates
        [{ name := some "A/", entries := some ["2"], id := none, createdAt := none,
           updatedAt := none, hash := none, filePath := none },
         { name := some "A?", entries := some ["3"], id := none, createdAt := none,
           updatedAt := none, hash := none, filePath := none }]
        (some [("A_.json", FileContent.valid
          { name := some "A/", entries := some ["1"], id := none, createdAt := none,
            updatedAt := none, hash := none, filePath := none })])).fs.getD []) ∧
    (sync_templates
      [{ name := some "A/", entries := some ["2"], id := none, createdAt := none,
         updatedAt := none, hash := none, filePath := none },
       { name := some "A?", entries := some ["3"], id := none, createdAt := none,
         updatedAt := none, hash := none, filePath := none }]
      (some [("A_.json", FileContent.valid
        { name := some "A/", entries := some ["1"], id := none, createdAt := none,
          updatedAt := none, hash := none, filePath := none })])).saved_count = 1 :=
  ⟨by decide, by decide, by decide⟩

/-- **C2 (amended).** Sync is additive up to sanitization collisions: an
on-disk file is left unchanged by POST `/alexandria/templates/sync` provided
no request template that the merge loop writes (truthy name not in the
pre-loop on-disk name set) has a sanitized filename equal to that file's
name; and `saved_count` counts exactly the request templates whose truthy
names were not already present on disk. -/
theorem C2_sync_additive (browser : List TemplateData) (fs : FS) (k : String)
    (hno : ∀ t ∈ browser, syncCond (file_template_names fs) t = true →
      _sanitize_filename (t.name.getD "Unnamed") ++ ".json" ≠ k) :
    ((sync_templates browser fs).fs.getD []).filter (fun p => p.1 == k) =
      (fs.getD []).filter (fun p => p.1 == k) ∧
    (sync_templates browser fs).saved_count =
      (browser.filter (syncCond (file_template_names fs))).length := by
  have hfold := sync_fold_spec (file_template_names fs) browser fs 0 []
  constructor
  · show ((browser.foldl (syncStep (file_template_names fs))
      (fs, 0, [])).1.getD []).filter (fun p => p.1 == k) = _
    rw [hfold]
    exact filter_saveAll_ne k _ fs (fun t ht =>
      hno t (List.mem_filter.mp ht).1 (List.mem_filter.mp ht).2)
  · show (browser.foldl (syncStep (file_template_names fs)) (fs, 0, [])).2.1 = _
    rw [hfold]
    exact Nat.zero_add _

/-- Witness for the amended C2: syncing a template named `"B"` into an empty
root leaves the (absent) file `C.json` untouched and counts one save. -/
theorem C2_sync_additive_witness :
    (∀ t ∈ [({ name := some "B", entries := some ["1"], id := none,
               createdAt := none, updatedAt := none, hash := none,
               filePath := none } : TemplateData)],
      syncCond (file_template_names none) t = true →
        _sanitize_filename (t.name.getD "Unnamed") ++ ".json" ≠ "C.json") ∧
    ((sync_templates
      [{ name := some "B", entries := some ["1"], id := none, createdAt := none,
         updatedAt := none, hash := none, filePath := none }]
      none).fs.getD []).filter (fun p => p.1 == "C.json") =
      ((none : FS).getD []).filter (fun p => p.1 == "C.json") :=
  ⟨by decide,
   (C2_sync_additive
      [{ name := some "B", entries := some ["1"], id := none, createdAt := none,
         updatedAt := none, hash := none, filePath := none }]
      none "C.json" (by decide)).1⟩

/-- **C3.** The sync merge loop writes a request template exactly when its
raw name is truthy and not string-equal to a name in the on-disk set loaded
once before the loop (the set is not updated during the loop and ignores
sanitization); `saved_count` is the number of such templates; a fresh name
colliding after sanitization overwrites the existing file; and two request
templates sharing one new name are both written — the later overwriting the
earlier — and both counted. -/
theorem C3_sync_write_iff (browser : List TemplateData) (fs : FS)
    (t : TemplateData) (nm : String) (hname : t.name = some nm) :
    (sync_templates browser fs).writes =
      browser.filter (syncCond (file_template_names fs)) ∧
    (sync_templates browser fs).saved_count =
      (browser.filter (syncCond (file_template_names fs))).length ∧
    (syncCond (file_template_names fs) t = true ↔
      nm ≠ "" ∧ nm ∉ file_template_names fs) ∧
    ((sync_templates
      [{ name := some "B?", entries := some ["7"], id := none, createdAt := none,
         updatedAt := none, hash := none, filePath := none }]
      (some [("B_.json", FileContent.valid
        { name := some "B/", entries := some ["1"], id := none, createdAt := none,
          updatedAt := none, hash := none, filePath := none })])).fs =
      some [("B_.json", FileContent.valid
        { name := some "B?", entries := some ["7"], id := none, createdAt := none,
          updatedAt := none, hash := none, filePath := none })]) ∧
    ((sync_templates
      [{ name := some "N", entries := some ["1"], id := none, createdAt := none,
         updatedAt := none, hash := none, filePath := none },
       { name := some "N", entries := some ["2"], id := none, createdAt := none,
         updatedAt := none, hash := none, filePath := none }]
      (some [])).writes =
      [{ name := some "N", entries := some ["1"], id := none, createdAt := none,
         updatedAt := none, hash := none, filePath := none },
       { name := some "N", entries := some ["2"], id := none, createdAt := none,
         updatedAt := none, hash := none, filePath := none }] ∧
     (sync_templates
      [{ name := some "N", entries := some ["1"], id := none, createdAt := none,
         updatedAt := none, hash := none, filePath := none },
       { name := some "N", entries := some ["2"], id := none, createdAt := none,
         updatedAt := none, hash := none, filePath := none }]
      (some [])).fs =
      some [("N.json", FileContent.valid
        { name := some "N", entries := some ["2"], id := none, createdAt := none,
          updatedAt := none, hash := none, filePath := none })] ∧
     (sync_templates
      [{ name := some "N", entries := some ["1"], id := none, createdAt := none,
         updatedAt := none, hash := none, filePath := none },
       { name := some "N", entries := some ["2"], id := none, createdAt := none,
         updatedAt := none, hash := none, filePath := none }]
      (some [])).saved_count = 2) := by
  have hfold := sync_fold_spec (file_template_names fs) browser fs 0 []
  refine ⟨?_, ?_, ?_, by decide, by decide, by decide, by decide⟩
  · show (browser.foldl (syncStep (file_template_names fs)) (fs, 0, [])).2.2 = _
    rw [hfold]
    exact List.nil_append _
  · show (browser.foldl (syncStep (file_template_names fs)) (fs, 0, [])).2.1 = _
    rw [hfold]
    exact Nat.zero_add _
  · simp only [syncCond, hname, Bool.and_eq_true, Bool.not_eq_true']
    rw [beq_eq_false_iff_ne]
    constructor
    · rintro ⟨h1, h2⟩
      exact ⟨h1, by simpa using h2⟩
    · rintro ⟨h1, h2⟩
      exact ⟨h1, by simpa using h2⟩

/-- Witness for C3: a template named `"X"` over an absent storage directory
satisfies the merge-loop guard characterization. -/
theorem C3_sync_write_iff_witness :
    ({ name := some "X", entries := none, id := none, createdAt := none,
       updatedAt := none, hash := none,
       filePath := none } : TemplateData).name = some "X" ∧
    (syncCond (file_template_names none)
      { name := some "X", entries := none, id := none, createdAt := none,
        updatedAt := none, hash := none, filePath := none } = true ↔
      "X" ≠ "" ∧ "X" ∉ file_template_names none) :=
  ⟨rfl,
   (C3_sync_write_iff [] none
      { name := some "X", entries := none, id := none, createdAt := none,
        updatedAt := none, hash := none, filePath := none }
      "X" rfl).2.2.1⟩

/-- Witness for C6: the template named `"My Template"` with one entry
round-trips through save and load-all over an absent directory. -/
theorem C6_round_trip_witness :
    ({ name := some "My Template", entries := some ["e1"], id := none,
       createdAt := none, updatedAt := none, hash := none,
       filePath := none } : TemplateData).name = some "My Template" ∧
    ("My Template" : String) ≠ "" ∧
    (∃ u ∈ _load_templates_from_directory
        (_save_template_to_file
          { name := some "My Template", entries := some ["e1"], id := none,
            createdAt := none, updatedAt := none, hash := none,
            filePath := none } none).2,
      u.name = ({ name := some "My Template", entries := some ["e1"],
                  id := none, createdAt := none, updatedAt := none,
                  hash := none, filePath := none } : TemplateData).name ∧
      u.entries = ({ name := some "My Template", entries := some ["e1"],
                     id := none, createdAt := none, updatedAt := none,
                     hash := none,
                     filePath := none } : TemplateData).entries) :=
  ⟨rfl, by decide,
   C6_round_trip none
     { name := some "My Template", entries := some ["e1"], id := none,
       createdAt := none, updatedAt := none, hash := none, filePath := none }
     "My Template" rfl (by decide)⟩

/-- Witness for C7: the names `"a/"` and `"a?"` both sanitize to `"a_"`; the
second save overwrites the first in the file `a_.json`. -/
theorem C7_collision_overwrite_witness :
    StoreWF ((none : FS).getD []) ∧
    ({ name := some "a/", entries := some ["1"], id := none, createdAt := none,
       updatedAt := none, hash := none,
       filePath := none } : TemplateData).name = some "a/" ∧
    ({ name := some "a?", entries := some ["2"], id := none, createdAt := none,
       updatedAt := none, hash := none,
       filePath := none } : TemplateData).name = some "a?" ∧
    ("a/" : String) ≠ "a?" ∧
    _sanitize_filename "a/" = _sanitize_filename "a?" ∧
    (((_save_template_to_file
        { name := some "a?", entries := some ["2"], id := none,
          createdAt := none, updatedAt := none, hash := none,
          filePath := none }
        (_save_template_to_file
          { name := some "a/", entries := some ["1"], id := none,
            createdAt := none, updatedAt := none, hash := none,
            filePath := none } none).2).2.getD []).filter
      (fun p => p.1 == _sanitize_filename "a/" ++ ".json") =
      [(_sanitize_filename "a/" ++ ".json", FileContent.valid
        { name := some "a?", entries := some ["2"], id := none,
          createdAt := none, updatedAt := none, hash := none,
          filePath := none })]) :=
  ⟨by show (List.map Prod.fst ([] : Store)).Nodup; decide,
   rfl, rfl, by decide, by decide,
   (C7_collision_overwrite none
      { name := some "a/", entries := some ["1"], id := none, createdAt := none,
        updatedAt := none, hash := none, filePath := none }
      { name := some "a?", entries := some ["2"], id := none, createdAt := none,
        updatedAt := none, hash := none, filePath := none }
      "a/" "a?"
      (by show (List.map Prod.fst ([] : Store)).Nodup; decide)
      rfl rfl (by decide) (by decide)).2⟩

/-- Witness for C8: deleting `"x"` over a root holding `x.json` succeeds then
fails; deleting `"y"` over an absent root fails twice, softly. -/
theorem C8_delete_idempotent_witness :
    ((some [("x.json", FileContent.invalid)] : FS).getD []).any
      (fun p => p.1 == _sanitize_filename "x" ++ ".json") = true ∧
    ((none : FS).getD []).any
      (fun p => p.1 == _sanitize_filename "y" ++ ".json") = false ∧
    ("y" : String) ≠ "" ∧
    ((_delete_template_file "x" (some [("x.json", FileContent.invalid)])).1 = true ∧
     (_delete_template_file "x"
       (_delete_template_file "x"
         (some [("x.json", FileContent.invalid)])).2).1 = false ∧
     _delete_template_file "y" none = (false, none) ∧
     _delete_template_file "y" (_delete_template_file "y" none).2 = (false, none) ∧
     delete_template_file (some "y") none =
       (DeleteResp.error ("Template " ++ "y" ++ " not found"), none)) :=
  ⟨by decide, by decide, by decide,
   C8_delete_idempotent (some [("x.json", FileContent.invalid)]) "x" none "y"
     (by decide) (by decide) (by decide)⟩

/-- Witness for C9: a directory holding a parseable `t.json` and an invalid
`bad.json`; the invalid file is skipped and `t.json` is still listed. -/
theorem C9_load_partial_failure_witness :
    ("t.json", FileContent.valid
      { name := some "T", entries := some ["e"], id := none, createdAt := none,
        updatedAt := none, hash := none, filePath := none }) ∈
      [("t.json", FileContent.valid
        { name := some "T", entries := some ["e"], id := none, createdAt := none,
          updatedAt := none, hash := none, filePath := none })] ∧
    globJsonMatch "t.json" = true ∧
    (_load_templates_from_directory none = [] ∧
     _load_templates_from_directory
        (some ([] ++ ("bad.json", FileContent.invalid) :: [])) =
      _load_templates_from_directory (some ([] ++ [])) ∧
     ∃ u, parseLoadedFile "t.json" (FileContent.valid
        { name := some "T", entries := some ["e"], id := none, createdAt := none,
          updatedAt := none, hash := none, filePath := none }) = some u ∧
      u ∈ _load_templates_from_directory
        (some [("t.json", FileContent.valid
          { name := some "T", entries := some ["e"], id := none,
            createdAt := none, updatedAt := none, hash := none,
            filePath := none })])) :=
  ⟨by decide, by decide,
   C9_load_partial_failure [] [] "bad.json"
     [("t.json", FileContent.valid
       { name := some "T", entries := some ["e"], id := none, createdAt := none,
         updatedAt := none, hash := none, filePath := none })]
     "t.json"
     { name := some "T", entries := some ["e"], id := none, createdAt := none,
       updatedAt := none, hash := none, filePath := none }
     (by decide) (by decide)⟩

end Alexandria
